import Mathlib

/-
Verification development for the statusline program (src/statusline.c).

The program is a short-lived process invoked once per prompt redraw.  Its
core is a cross-invocation caching subsystem:
  * a per-session state cache (`Cached_State`, a packed 376-byte record in
    /dev/shm) merged with the incoming JSON payload on every invocation,
  * a per-repository git-status cache (`Git_Cache`, a packed 352-byte
    record) with mtime-based invalidation and a double-fork background
    refresh,
  * a rate-limited sweep that deletes cache files of dead sessions.

This file gives a shallow embedding of those parts, translated from the C
source, and proves or refutes the specification's claims about them.
Machine integers (S64, U32) are modelled as Int / Nat (no arithmetic in
the modelled code can overflow: values are parsed counters and
timestamps), C doubles as Rat (only comparisons and copies are performed
on them), and C strings as Lean String / List Char with explicit
truncation where the code truncates.  Files are modelled as optional
(size, typed contents) pairs: the code reads a fixed number of bytes and
compares `read`'s return value against the record size, so only the byte
count and the record interpretation of the leading bytes matter.
-/

namespace Statusline

/-! ## Session state cache: data model

`Json_Parsed_Fields` mirrors the struct filled by `json_parse_all`
(statusline.c:299-311).  `json_parse_all` zeroes the struct and then sets
exactly the fields whose keys occur in the payload, so a payload in which
a key is absent corresponds to a field holding 0 (numbers) or "" (strings).
The JSON scanner itself is an external collaborator per the spec and is
not re-modelled here; claims are stated at the parsed-fields level. -/

structure Json_Parsed_Fields where
  current_dir         : String
  display_name        : String
  mode                : String
  total_cost_usd      : Rat
  total_lines_added   : Int
  total_lines_removed : Int
  total_duration_ms   : Int
  used_percentage     : Int
  context_window_size : Int
deriving DecidableEq

/-- `Cached_State` mirrors the packed struct at statusline.c:726-738.
Field order and the byte size (7 x 8 + 256 + 64 = 376) follow the C
layout; strings are stored NUL-terminated inside fixed 256/64-byte
arrays, which the model represents as strings of length at most 255/63. -/
structure Cached_State where
  used_percent      : Int
  context_size      : Int
  cost_usd          : Rat
  lines_added       : Int
  lines_removed     : Int
  duration_ms       : Int
  last_update_sec   : Int
  working_directory : String
  model             : String
deriving DecidableEq

/-- Byte size of the packed `Cached_State` struct: 7 eight-byte fields
plus char[256] plus char[64]. -/
def cachedStateSizeBytes : Nat := 7 * 8 + 256 + 64

/-- The all-zero record produced by `memset(&cached, 0, sizeof(cached))`
at statusline.c:1223. -/
def zeroCached : Cached_State :=
  { used_percent := 0, context_size := 0, cost_usd := 0, lines_added := 0
    lines_removed := 0, duration_ms := 0, last_update_sec := 0
    working_directory := "", model := "" }

/-- First `n` characters of a string, as `memcpy(dst, src, Min(len, n))`
into a zeroed buffer produces. -/
def takeChars (n : Nat) (s : String) : String :=
  String.mk (s.data.take n)

/-- A session-state cache file: its byte size and the `Cached_State`
interpretation of its leading `sizeof(Cached_State)` bytes (only
meaningful when the size reaches the record size; smaller files are
rejected before the contents are used). -/
structure SessFile where
  size   : Nat
  record : Cached_State
deriving DecidableEq

/-- Model of `read_cached_state` (statusline.c:772-784).  The C code
opens the cache file (failure => `false`, i.e. `Option.none` here), then
does `read(fd, state, sizeof(Cached_State))` and succeeds iff the number
of bytes read equals `sizeof(Cached_State)`.  `read` on a regular file
returns `min (file size) (requested)`, so the check accepts any file of
at least the record size and uses its leading bytes. -/
def read_cached_state (file : Option SessFile) : Option Cached_State :=
  match file with
  | Option.none => Option.none
  | Option.some f =>
    let bytesRead := min f.size cachedStateSizeBytes
    if bytesRead = cachedStateSizeBytes then Option.some f.record else Option.none

/-! ## Session state cache: merge and display resolution

`resolve_state` (statusline.c:1219-1304) reads the cached record (all
zeros when absent), computes the display state from payload plus cache,
computes the new cache record as a field-wise maximum, and writes it back
only when it differs from what was read (memcmp at statusline.c:1289).
`now` models the `time(NULL)` call at statusline.c:1265. -/

/-- The cache-update step of `resolve_state` (statusline.c:1268-1287):
each numeric field becomes `Max(incoming, cached)` (for the cost double,
the explicit ternary `incoming > cached ? incoming : cached`),
`last_update_sec` becomes the current wall-clock second, and each string
field becomes the truncated incoming string if nonempty, else the cached
one. -/
def merge_cache (cached : Cached_State) (fields : Json_Parsed_Fields) (now : Int) :
    Cached_State :=
  { used_percent    := max fields.used_percentage cached.used_percent
    context_size    := max fields.context_window_size cached.context_size
    cost_usd        := if fields.total_cost_usd > cached.cost_usd
                       then fields.total_cost_usd else cached.cost_usd
    lines_added     := max fields.total_lines_added cached.lines_added
    lines_removed   := max fields.total_lines_removed cached.lines_removed
    duration_ms     := max fields.total_duration_ms cached.duration_ms
    last_update_sec := now
    working_directory := if fields.current_dir ≠ ""
                         then takeChars 255 fields.current_dir
                         else cached.working_directory
    model           := if fields.display_name ≠ ""
                       then takeChars 63 fields.display_name
                       else cached.model }

/-- `Display_State` mirrors the struct at statusline.c:1183-1196
(fields relevant to state resolution). -/
structure Display_State where
  working_directory : String
  model             : String
  vim_mode          : String
  cost_usd          : Rat
  lines_added       : Int
  lines_removed     : Int
  total_duration_ms : Int
  used_percent      : Int
  context_size      : Int
  last_update_sec   : Int
deriving DecidableEq

/-- The display-state computation of `resolve_state` when stdin delivered
a payload (statusline.c:1234-1265): a string field is the incoming value
if nonempty, else the cached value; a numeric field is the incoming value
if strictly positive, else the cached value. -/
def resolve_display (cached : Cached_State) (fields : Json_Parsed_Fields) (now : Int) :
    Display_State :=
  { working_directory := if fields.current_dir ≠ ""
                         then takeChars 511 fields.current_dir
                         else cached.working_directory
    model             := if fields.display_name ≠ ""
                         then takeChars 63 fields.display_name
                         else cached.model
    vim_mode          := if fields.mode ≠ "" then takeChars 31 fields.mode else ""
    cost_usd          := if fields.total_cost_usd > 0
                         then fields.total_cost_usd else cached.cost_usd
    lines_added       := if fields.total_lines_added > 0
                         then fields.total_lines_added else cached.lines_added
    lines_removed     := if fields.total_lines_removed > 0
                         then fields.total_lines_removed else cached.lines_removed
    total_duration_ms := if fields.total_duration_ms > 0
                         then fields.total_duration_ms else cached.duration_ms
    used_percent      := if fields.used_percentage > 0
                         then fields.used_percentage else cached.used_percent
    context_size      := if fields.context_window_size > 0
                         then fields.context_window_size else cached.context_size
    last_update_sec   := now }

/-- The display-state computation of `resolve_state` when no payload
arrived (statusline.c:1292-1303): everything comes from the cache. -/
def display_from_cache (cached : Cached_State) : Display_State :=
  { working_directory := cached.working_directory
    model             := cached.model
    vim_mode          := ""
    cost_usd          := cached.cost_usd
    lines_added       := cached.lines_added
    lines_removed     := cached.lines_removed
    total_duration_ms := cached.duration_ms
    used_percent      := cached.used_percent
    context_size      := cached.context_size
    last_update_sec   := cached.last_update_sec }

/-- Result of one `resolve_state` invocation: the display state handed to
the renderer, the cache file contents afterwards, and whether
`write_cached_state` was called. -/
structure Resolve_Result where
  display     : Display_State
  cache_after : Cached_State
  wrote       : Bool
deriving DecidableEq

/-- Model of `resolve_state` (statusline.c:1219-1304) given the cached
record that was read (`zeroCached` when the file is absent).  The write
guard is the memcmp at statusline.c:1289: the merged record is written
iff it differs bit-for-bit from the record read (on the packed struct
with zero-padded string arrays, memcmp equality coincides with
field-wise equality of this model). -/
def resolve_state (cached : Cached_State) (input : Option Json_Parsed_Fields)
    (now : Int) : Resolve_Result :=
  match input with
  | Option.some fields =>
    let newCache := merge_cache cached fields now
    if newCache = cached then
      { display := resolve_display cached fields now, cache_after := cached
        wrote := false }
    else
      { display := resolve_display cached fields now, cache_after := newCache
        wrote := true }
  | Option.none =>
    { display := display_from_cache cached, cache_after := cached, wrote := false }

/-! ## C1: monotonicity of the cache merge -/

/-- Comparison of the six payload-derived numeric fields of two cache
records (the fields the merge computes as maxima). -/
def cacheNumLE (a b : Cached_State) : Prop :=
  a.used_percent ≤ b.used_percent ∧ a.context_size ≤ b.context_size ∧
  a.cost_usd ≤ b.cost_usd ∧ a.lines_added ≤ b.lines_added ∧
  a.lines_removed ≤ b.lines_removed ∧ a.duration_ms ≤ b.duration_ms

/-- The sequence of cache records produced by delivering a list of
(payload, wall-clock time) pairs to the merge, starting from a given
cached record: the initial record followed by each successive merge
result. -/
def cacheTrajectory (init : Cached_State) :
    List (Json_Parsed_Fields × Int) → List Cached_State
  | [] => [init]
  | p :: ps => init :: cacheTrajectory (merge_cache init p.1 p.2) ps

theorem cacheTrajectory_ne_nil (init : Cached_State)
    (ps : List (Json_Parsed_Fields × Int)) : cacheTrajectory init ps ≠ [] := by
  cases ps <;> simp [cacheTrajectory]

theorem head?_cacheTrajectory (init : Cached_State)
    (ps : List (Json_Parsed_Fields × Int)) :
    (cacheTrajectory init ps).head? = Option.some init := by
  cases ps <;> simp [cacheTrajectory]

theorem cacheNumLE_merge (c : Cached_State) (f : Json_Parsed_Fields) (n : Int) :
    cacheNumLE c (merge_cache c f n) := by
  refine ⟨?_, ?_, ?_, ?_, ?_, ?_⟩ <;> simp only [merge_cache]
  · exact le_max_right _ _
  · exact le_max_right _ _
  · split
    · next h => exact le_of_lt h
    · exact le_refl _
  · exact le_max_right _ _
  · exact le_max_right _ _
  · exact le_max_right _ _

theorem chain'_cacheTrajectory (ps : List (Json_Parsed_Fields × Int)) :
    ∀ init : Cached_State, List.Chain' cacheNumLE (cacheTrajectory init ps) := by
  induction ps with
  | nil => intro init; simp [cacheTrajectory]
  | cons p ps ih =>
    intro init
    rw [cacheTrajectory, List.chain'_cons']
    refine ⟨?_, ih _⟩
    intro y hy
    rw [head?_cacheTrajectory] at hy
    cases hy
    exact cacheNumLE_merge init p.1 p.2

/-- C1: for every sequence of payloads delivered to the cache-update step
of `resolve_state`, each payload-derived numeric field of the cached
record is non-decreasing across the sequence, and each merge step stores
exactly the maximum of the previously cached value and the incoming
value.  (`last_update_sec` is not merged from the payload: each step
overwrites it with the invocation's wall-clock time, recorded by the last
conjunct.) -/
theorem c1_merge_monotone (init : Cached_State)
    (payloads : List (Json_Parsed_Fields × Int)) :
    List.Chain' cacheNumLE (cacheTrajectory init payloads) ∧
    (∀ (c : Cached_State) (f : Json_Parsed_Fields) (n : Int),
      (merge_cache c f n).used_percent = max f.used_percentage c.used_percent ∧
      (merge_cache c f n).context_size = max f.context_window_size c.context_size ∧
      (merge_cache c f n).cost_usd = max f.total_cost_usd c.cost_usd ∧
      (merge_cache c f n).lines_added = max f.total_lines_added c.lines_added ∧
      (merge_cache c f n).lines_removed = max f.total_lines_removed c.lines_removed ∧
      (merge_cache c f n).duration_ms = max f.total_duration_ms c.duration_ms ∧
      (merge_cache c f n).last_update_sec = n) := by
  refine ⟨chain'_cacheTrajectory payloads init, ?_⟩
  intro c f n
  refine ⟨rfl, rfl, ?_, rfl, rfl, rfl, rfl⟩
  simp only [merge_cache, max_def]
  split
  · next h => rw [if_neg (not_le.mpr h)]
  · next h => rw [if_pos (not_lt.mp h)]

/-! ## C2: the first-invocation / transient-drop scenario -/

/-- Parsed fields of the payload `\x7b"total_cost_usd": 2.5,
"total_lines_added": 10\x7d`: `json_parse_all` zero-initialises the
struct and sets only the present keys. -/
def payloadFirst : Json_Parsed_Fields :=
  { current_dir := "", display_name := "", mode := "", total_cost_usd := mkRat 5 2
    total_lines_added := 10, total_lines_removed := 0, total_duration_ms := 0
    used_percentage := 0, context_window_size := 0 }

/-- Parsed fields of the payload `\x7b"total_cost_usd": 1.0\x7d`. -/
def payloadSecond : Json_Parsed_Fields :=
  { payloadFirst with total_cost_usd := 1, total_lines_added := 0 }

/-- Parsed fields of a payload that omits every recognised key. -/
def payloadEmpty : Json_Parsed_Fields :=
  { payloadFirst with total_cost_usd := 0, total_lines_added := 0 }

/-- C2, counterexample to the claim as stated.  First invocation with no
prior cache and payload cost 2.5 / lines-added 10 resolves display cost
2.5 and lines 10 (this part of the claim holds), but the second
invocation with payload cost 1.0 resolves display cost 1.0, not the
claimed 2.5: at statusline.c:1259 a strictly positive incoming cost
overrides the cached value for display. -/
theorem c2_counterexample :
    (resolve_state zeroCached (Option.some payloadFirst) 100).display.cost_usd = mkRat 5 2 ∧
    (resolve_state zeroCached (Option.some payloadFirst) 100).display.lines_added = 10 ∧
    (resolve_state
      (resolve_state zeroCached (Option.some payloadFirst) 100).cache_after
      (Option.some payloadSecond) 200).display.cost_usd = 1 ∧
    ((1 : Rat) ≠ mkRat 5 2) := by
  refine ⟨by decide, by decide, by decide, by norm_num⟩

/-- C2 as amended: the first invocation resolves cost 2.5 and lines 10;
a second invocation delivering cost 1.0 resolves display cost 1.0 (a
positive incoming value overrides the cache on the display path) while
the cached record retains the high-water mark 2.5; a second invocation
that omits the cost field (parsed as 0) resolves display cost 2.5 from
the cache. -/
theorem c2_amended :
    (resolve_state zeroCached (Option.some payloadFirst) 100).display.cost_usd = mkRat 5 2 ∧
    (resolve_state zeroCached (Option.some payloadFirst) 100).display.lines_added = 10 ∧
    (resolve_state
      (resolve_state zeroCached (Option.some payloadFirst) 100).cache_after
      (Option.some payloadSecond) 200).display.cost_usd = 1 ∧
    (resolve_state
      (resolve_state zeroCached (Option.some payloadFirst) 100).cache_after
      (Option.some payloadSecond) 200).cache_after.cost_usd = mkRat 5 2 ∧
    (resolve_state
      (resolve_state zeroCached (Option.some payloadFirst) 100).cache_after
      (Option.some payloadEmpty) 200).display.cost_usd = mkRat 5 2 := by
  refine ⟨by decide, by decide, by decide, by decide, by decide⟩

/-! ## C7: the session-cache read treats absent and short files as None -/

/-- C7, counterexample to the claim as stated.  A cache file one byte
larger than the record layout is not rejected: `read` returns the first
`sizeof(Cached_State)` bytes, the `bytes_read == sizeof` check at
statusline.c:783 passes, and the record is returned even though the file
size does not exactly match the layout. -/
theorem c7_counterexample :
    read_cached_state (Option.some ⟨cachedStateSizeBytes + 1, zeroCached⟩) =
      Option.some zeroCached ∧
    cachedStateSizeBytes + 1 ≠ cachedStateSizeBytes := by
  exact ⟨by decide, by decide⟩

/-- C7 as amended: the read returns None exactly when the cache file does
not exist or is smaller than the fixed record layout (silently, never as
an error — the result type has no error case); a file at least as large
as the record yields the record formed by its leading bytes, trailing
bytes ignored. -/
theorem c7_amended (file : Option SessFile) :
    (read_cached_state file = Option.none ↔
      (file = Option.none ∨
        ∃ f, file = Option.some f ∧ f.size < cachedStateSizeBytes)) ∧
    (∀ r, read_cached_state file = Option.some r ↔
      ∃ f, file = Option.some f ∧ cachedStateSizeBytes ≤ f.size ∧ r = f.record) := by
  cases file with
  | none => simp [read_cached_state]
  | some f =>
    constructor
    · simp only [read_cached_state]
      split
      · next h =>
        simp only [reduceCtorEq, false_iff]
        rintro (h' | ⟨g, hg, hlt⟩)
        · cases h'
        · cases hg; omega
      · next h =>
        simp only [true_iff]
        right
        exact ⟨f, rfl, by omega⟩
    · intro r
      simp only [read_cached_state]
      split
      · next h =>
        simp only [Option.some.injEq]
        constructor
        · intro hr; exact ⟨f, rfl, by omega, hr.symm⟩
        · rintro ⟨g, hg, _, hr⟩; cases hg; exact hr.symm
      · next h =>
        simp only [reduceCtorEq, false_iff]
        rintro ⟨g, hg, hge, _⟩
        cases hg
        omega

/-! ## C8: the cache write happens iff the merged record changed -/

/-- C8: in `resolve_state`, `write_cached_state` is called iff the merged
record differs (bit-for-bit, i.e. field-for-field on the packed layout)
from the record that was read; when they are identical no write occurs
and the cache file is unchanged; in every case the file afterwards holds
the merged record. -/
theorem c8_write_iff_changed (cached : Cached_State) (fields : Json_Parsed_Fields)
    (now : Int) :
    ((resolve_state cached (Option.some fields) now).wrote = true ↔
      merge_cache cached fields now ≠ cached) ∧
    ((resolve_state cached (Option.some fields) now).wrote = false ↔
      (resolve_state cached (Option.some fields) now).cache_after = cached) ∧
    (resolve_state cached (Option.some fields) now).cache_after =
      merge_cache cached fields now := by
  simp only [resolve_state]
  split
  · next h => simp [h]
  · next h => simp [h, Ne, h]

/-! ## Git status cache: data model

The git cache is one packed record per repository (statusline.c:862-873),
validated by the cache file's own age against a 5000 ms TTL and by the
repository's `.git/index` modification time (statusline.c:896-934).  The
status recompute subprocess (`run_git_status`) is an opaque provider of
four counts per the spec, modelled as a `GitCounts` parameter. -/

/-- The three-state classification at statusline.c:643. -/
inductive Cache_State where
  | none
  | stale
  | valid
deriving DecidableEq

/-- Modified/staged/ahead/behind counts (U32 in the C struct). -/
structure GitCounts where
  modified : Nat
  staged   : Nat
  ahead    : Nat
  behind   : Nat
deriving DecidableEq

/-- `Git_Cache` mirrors the packed struct at statusline.c:862-873. -/
structure Git_Cache where
  index_mtime_sec  : Int
  index_mtime_nsec : Int
  modified         : Nat
  staged           : Nat
  ahead            : Nat
  behind           : Nat
  branch           : String
  repo_path        : String
deriving DecidableEq

/-- Byte size of the packed `Git_Cache` struct:
2 x 8 + 4 x 4 + 64 + 256 = 352. -/
def gitCacheSizeBytes : Nat := 2 * 8 + 4 * 4 + 64 + 256

/-- `GIT_CACHE_TTL_MS` (statusline.c:875), in milliseconds. -/
def GIT_CACHE_TTL_MS : Int := 5000

/-- A git-cache file: byte size, the `Git_Cache` interpretation of its
leading `sizeof(Git_Cache)` bytes, and the file's own mtime in
milliseconds (obtained via `fstat`; modelled as available whenever the
file exists). -/
structure GitFile where
  size    : Nat
  record  : Git_Cache
  mtimeMs : Int
deriving DecidableEq

/-- The counts stored in a cache record. -/
def recCounts (r : Git_Cache) : GitCounts :=
  ⟨r.modified, r.staged, r.ahead, r.behind⟩

/-- Model of `read_git_cache` (statusline.c:896-934).  `nowMs` is the
current realtime clock in ms; `indexMtime` is the repository's current
`.git/index` modification time as (seconds, nanoseconds), `Option.none`
when `stat` on the index fails.  The C code: open failure or
`bytes_read != sizeof(Git_Cache)` => CACHE_NONE (as with the session
cache, `read` returns `min size sizeof`, so only undersized files are
rejected); stored-path mismatch under `strncmp(.., .., 256)` =>
CACHE_NONE; cache-file age above the TTL => CACHE_STALE; index not
statable => CACHE_STALE; index mtime equal to the stored pair =>
CACHE_VALID, else CACHE_STALE. -/
def read_git_cache (repoPath : String) (file : Option GitFile) (nowMs : Int)
    (indexMtime : Option (Int × Int)) : Cache_State :=
  match file with
  | Option.none => Cache_State.none
  | Option.some f =>
    if min f.size gitCacheSizeBytes ≠ gitCacheSizeBytes then Cache_State.none
    else if f.record.repo_path.data.take 256 ≠ repoPath.data.take 256 then
      Cache_State.none
    else if nowMs - f.mtimeMs > GIT_CACHE_TTL_MS then Cache_State.stale
    else
      match indexMtime with
      | Option.none => Cache_State.stale
      | Option.some (s, n) =>
        if f.record.index_mtime_sec = s ∧ f.record.index_mtime_nsec = n then
          Cache_State.valid
        else Cache_State.stale

/-- Model of `write_git_cache` (statusline.c:936-961): stats the
repository's `.git/index` and returns without writing when that fails;
otherwise writes a zeroed record carrying the index mtime, the four
counts, and the repository path truncated by `strncpy(.., .., 255)`.
The result is the record written, `Option.none` when no write occurs. -/
def write_git_cache (repoPath : String) (indexMtime : Option (Int × Int))
    (c : GitCounts) : Option Git_Cache :=
  match indexMtime with
  | Option.none => Option.none
  | Option.some (s, n) =>
    Option.some
      { index_mtime_sec := s, index_mtime_nsec := n, modified := c.modified
        staged := c.staged, ahead := c.ahead, behind := c.behind
        branch := "", repo_path := takeChars 255 repoPath }

/-- The counts held in the out-parameter record after `read_git_cache`
filled it.  The `Option.none` case models the uninitialised C struct; it
is unreachable on the stale/valid paths (those classifications require an
existing, fully read file). -/
def cachedRecOf (file : Option GitFile) : GitCounts :=
  match file with
  | Option.some f => recCounts f.record
  | Option.none => ⟨0, 0, 0, 0⟩

/-- Outcome of one `get_git_status_cached` query (statusline.c:1041-1083):
the counts returned, the classification, whether `run_git_status` ran on
the synchronous path, the cache write performed by the synchronous path
(`Option.none` = no write), and whether the detached double-fork refresh
worker was launched. -/
structure Git_Query where
  counts             : GitCounts
  state              : Cache_State
  sync_status_run    : Bool
  sync_write         : Option Git_Cache
  background_refresh : Bool
deriving DecidableEq

/-- Model of `get_git_status_cached` (statusline.c:1041-1083).
`trueStatus` is the counts the status subprocess would report (the
subprocess is an opaque external provider).  CACHE_VALID: return the
cached counts, nothing else.  CACHE_STALE: return the cached counts and
fork an intermediary that forks the real worker and exits immediately;
the caller waits only on the intermediary (waitpid at statusline.c:1074),
so the synchronous path neither recomputes nor writes.  CACHE_NONE: run
the status subprocess synchronously, then `write_git_cache`, then
return the fresh counts. -/
def get_git_status_cached (repoPath : String) (file : Option GitFile) (nowMs : Int)
    (indexMtime : Option (Int × Int)) (trueStatus : GitCounts) : Git_Query :=
  match read_git_cache repoPath file nowMs indexMtime with
  | Cache_State.valid =>
    { counts := cachedRecOf file, state := Cache_State.valid
      sync_status_run := false, sync_write := Option.none
      background_refresh := false }
  | Cache_State.stale =>
    { counts := cachedRecOf file, state := Cache_State.stale
      sync_status_run := false, sync_write := Option.none
      background_refresh := true }
  | Cache_State.none =>
    { counts := trueStatus, state := Cache_State.none
      sync_status_run := true
      sync_write := write_git_cache repoPath indexMtime trueStatus
      background_refresh := false }

/-- The detached grandchild of the stale path (statusline.c:1066-1071):
at some later time it runs `run_git_status` and `write_git_cache`.
`indexAtRefresh` and `freshStatus` are the index mtime and true status at
that later time. -/
def background_refresh_write (repoPath : String) (indexAtRefresh : Option (Int × Int))
    (freshStatus : GitCounts) : Option Git_Cache :=
  write_git_cache repoPath indexAtRefresh freshStatus

/-! ## C3: classification of the git cache entry -/

/-- A usable entry: the file covers the record size and the stored
repository path matches the queried path under `strncmp(.., .., 256)`. -/
def git_entry_usable (repoPath : String) (f : GitFile) : Prop :=
  gitCacheSizeBytes ≤ f.size ∧
  f.record.repo_path.data.take 256 = repoPath.data.take 256

/-- Concrete git cache record used for counterexamples and witnesses. -/
def gcRecEx : Git_Cache :=
  { index_mtime_sec := 7, index_mtime_nsec := 9, modified := 1, staged := 2
    ahead := 3, behind := 4, branch := "", repo_path := "/r" }

/-- C3, counterexample to the claim as stated.  A cache file one byte
larger than the record is classified Valid (fresh, matching path and
index mtime) even though its size is not exactly the record size: the
`bytes_read == sizeof` check at statusline.c:906 only rejects short
files. -/
theorem c3_counterexample :
    read_git_cache "/r" (Option.some ⟨gitCacheSizeBytes + 1, gcRecEx, 0⟩) 1000
      (Option.some (7, 9)) = Cache_State.valid ∧
    gitCacheSizeBytes + 1 ≠ gitCacheSizeBytes := by
  exact ⟨by decide, by decide⟩

/-- C3 as amended: an entry is classified Valid iff the cache file exists
with at least the record size (its leading record-size bytes are the
entry; short files are a miss), the stored repository path matches, the
file's own age is at most the 5000 ms TTL, and the stored index mtime
(seconds and nanoseconds) exactly equals the repository's current index
mtime; it is classified Stale iff such a usable entry exists but the TTL
is exceeded, or the index mtime differs or cannot be read. -/
theorem c3_amended (repoPath : String) (file : Option GitFile) (nowMs : Int)
    (idx : Option (Int × Int)) :
    (read_git_cache repoPath file nowMs idx = Cache_State.valid ↔
      ∃ f, file = Option.some f ∧ git_entry_usable repoPath f ∧
        nowMs - f.mtimeMs ≤ GIT_CACHE_TTL_MS ∧
        idx = Option.some (f.record.index_mtime_sec, f.record.index_mtime_nsec)) ∧
    (read_git_cache repoPath file nowMs idx = Cache_State.stale ↔
      ∃ f, file = Option.some f ∧ git_entry_usable repoPath f ∧
        (GIT_CACHE_TTL_MS < nowMs - f.mtimeMs ∨
          idx ≠ Option.some (f.record.index_mtime_sec, f.record.index_mtime_nsec))) := by
  cases file with
  | none => simp [read_git_cache]
  | some f =>
    simp only [read_git_cache, Option.some.injEq, git_entry_usable]
    by_cases h1 : min f.size gitCacheSizeBytes ≠ gitCacheSizeBytes
    · rw [if_pos h1]
      constructor
      · simp only [reduceCtorEq, false_iff]
        rintro ⟨g, rfl, ⟨hsz, _⟩, _⟩
        exact h1 (by omega)
      · simp only [reduceCtorEq, false_iff]
        rintro ⟨g, rfl, ⟨hsz, _⟩, _⟩
        exact h1 (by omega)
    · rw [if_neg h1]
      have hsz : gitCacheSizeBytes ≤ f.size := by omega
      by_cases h2 : f.record.repo_path.data.take 256 ≠ repoPath.data.take 256
      · rw [if_pos h2]
        constructor
        · simp only [reduceCtorEq, false_iff]
          rintro ⟨g, rfl, ⟨_, hp⟩, _⟩
          exact h2 hp
        · simp only [reduceCtorEq, false_iff]
          rintro ⟨g, rfl, ⟨_, hp⟩, _⟩
          exact h2 hp
      · rw [if_neg h2]
        push_neg at h2
        by_cases h3 : nowMs - f.mtimeMs > GIT_CACHE_TTL_MS
        · rw [if_pos h3]
          constructor
          · simp only [reduceCtorEq, false_iff]
            rintro ⟨g, rfl, _, hage, _⟩
            omega
          · simp only [true_iff]
            exact ⟨f, rfl, ⟨hsz, h2⟩, Or.inl h3⟩
        · rw [if_neg h3]
          push_neg at h3
          cases idx with
          | none =>
            constructor
            · simp only [reduceCtorEq, false_iff]
              rintro ⟨g, rfl, _, _, hsome⟩
              cases hsome
            · simp only [true_iff]
              exact ⟨f, rfl, ⟨hsz, h2⟩, Or.inr (by simp)⟩
          | some p =>
            obtain ⟨s, n⟩ := p
            dsimp only
            by_cases h4 : f.record.index_mtime_sec = s ∧ f.record.index_mtime_nsec = n
            · rw [if_pos h4]
              obtain ⟨hs, hn⟩ := h4
              constructor
              · simp only [true_iff]
                exact ⟨f, rfl, ⟨hsz, h2⟩, h3, by rw [hs, hn]⟩
              · simp only [reduceCtorEq, false_iff]
                rintro ⟨g, rfl, _, (hage | hne)⟩
                · omega
                · exact hne (by rw [hs, hn])
            · rw [if_neg h4]
              constructor
              · simp only [reduceCtorEq, false_iff]
                rintro ⟨g, rfl, _, _, hsome⟩
                injection hsome with hp
                injection hp with hs hn
                exact h4 ⟨hs.symm, hn.symm⟩
              · simp only [true_iff]
                refine ⟨f, rfl, ⟨hsz, h2⟩, Or.inr ?_⟩
                intro hsome
                injection hsome with hp
                injection hp with hs hn
                exact h4 ⟨hs.symm, hn.symm⟩

/-! ## C4, C5, C6: behaviour of the query in each cache state -/

/-- C4: on a Valid classification the query returns exactly the cached
modified/staged/ahead/behind counts, runs no status subprocess, performs
no cache write, and launches no background refresh. -/
theorem c4_valid_query (repoPath : String) (file : Option GitFile) (nowMs : Int)
    (idx : Option (Int × Int)) (trueStatus : GitCounts)
    (h : read_git_cache repoPath file nowMs idx = Cache_State.valid) :
    get_git_status_cached repoPath file nowMs idx trueStatus =
      { counts := cachedRecOf file, state := Cache_State.valid
        sync_status_run := false, sync_write := Option.none
        background_refresh := false } := by
  simp [get_git_status_cached, h]

/-- Witness for C4: a concrete fresh entry with matching index mtime is
served from the cache with no subprocess and no write. -/
theorem c4_valid_query_witness :
    get_git_status_cached "/r" (Option.some ⟨gitCacheSizeBytes, gcRecEx, 0⟩) 1000
      (Option.some (7, 9)) ⟨5, 6, 7, 8⟩ =
      { counts := ⟨1, 2, 3, 4⟩, state := Cache_State.valid
        sync_status_run := false, sync_write := Option.none
        background_refresh := false } := by
  have h := c4_valid_query "/r" (Option.some ⟨gitCacheSizeBytes, gcRecEx, 0⟩) 1000
    (Option.some (7, 9)) ⟨5, 6, 7, 8⟩ (by decide)
  exact h.trans (by decide)

/-- C5: on a Stale classification the query returns the previously cached
counts, the synchronous path runs no status subprocess and performs no
cache write, and the detached background worker is launched; the worker
(running later, after the caller has gone on) recomputes the status and
performs the single cache write, storing the fresh counts. -/
theorem c5_stale_query (repoPath : String) (file : Option GitFile) (nowMs : Int)
    (idx : Option (Int × Int)) (trueStatus : GitCounts)
    (h : read_git_cache repoPath file nowMs idx = Cache_State.stale) :
    get_git_status_cached repoPath file nowMs idx trueStatus =
      { counts := cachedRecOf file, state := Cache_State.stale
        sync_status_run := false, sync_write := Option.none
        background_refresh := true } ∧
    (∀ (s n : Int) (fresh : GitCounts),
      background_refresh_write repoPath (Option.some (s, n)) fresh =
        Option.some
          { index_mtime_sec := s, index_mtime_nsec := n
            modified := fresh.modified, staged := fresh.staged
            ahead := fresh.ahead, behind := fresh.behind
            branch := "", repo_path := takeChars 255 repoPath }) := by
  constructor
  · simp [get_git_status_cached, h]
  · intro s n fresh
    rfl

/-- Witness for C5: a concrete entry older than the TTL is served from
the cache while only the detached worker is launched, and that worker's
write stores the fresh counts. -/
theorem c5_stale_query_witness :
    get_git_status_cached "/r" (Option.some ⟨gitCacheSizeBytes, gcRecEx, 0⟩) 10000
      (Option.some (7, 9)) ⟨5, 6, 7, 8⟩ =
      { counts := ⟨1, 2, 3, 4⟩, state := Cache_State.stale
        sync_status_run := false, sync_write := Option.none
        background_refresh := true } ∧
    background_refresh_write "/r" (Option.some (11, 12)) ⟨5, 6, 7, 8⟩ =
      Option.some
        { index_mtime_sec := 11, index_mtime_nsec := 12, modified := 5
          staged := 6, ahead := 7, behind := 8, branch := ""
          repo_path := takeChars 255 "/r" } := by
  have h := c5_stale_query "/r" (Option.some ⟨gitCacheSizeBytes, gcRecEx, 0⟩) 10000
    (Option.some (7, 9)) ⟨5, 6, 7, 8⟩ (by decide)
  exact ⟨h.1.trans (by decide), h.2 11 12 ⟨5, 6, 7, 8⟩⟩

/-- C6, counterexample to the claim as stated.  On a Miss (here: no cache
file) with a repository whose `.git/index` cannot be statted (e.g. a
fresh `git init` with no index yet), the recomputation runs synchronously
but `write_git_cache` returns without writing (statusline.c:942), so the
returned counts are not written to the cache file. -/
theorem c6_miss_counterexample :
    (get_git_status_cached "/r" Option.none 0 Option.none ⟨1, 2, 3, 4⟩).state =
      Cache_State.none ∧
    (get_git_status_cached "/r" Option.none 0 Option.none ⟨1, 2, 3, 4⟩).sync_status_run =
      true ∧
    (get_git_status_cached "/r" Option.none 0 Option.none ⟨1, 2, 3, 4⟩).counts =
      ⟨1, 2, 3, 4⟩ ∧
    (get_git_status_cached "/r" Option.none 0 Option.none ⟨1, 2, 3, 4⟩).sync_write =
      Option.none := by
  exact ⟨by decide, by decide, by decide, by decide⟩

/-- C6 as amended: on a Miss the recomputation runs synchronously and its
counts are returned; the resulting counts are written to the cache file
before the query returns provided the repository's `.git/index` can be
statted (the write embeds the index mtime); when the index cannot be
statted the write is silently skipped. -/
theorem c6_miss_query (repoPath : String) (file : Option GitFile) (nowMs : Int)
    (idx : Option (Int × Int)) (trueStatus : GitCounts)
    (h : read_git_cache repoPath file nowMs idx = Cache_State.none) :
    get_git_status_cached repoPath file nowMs idx trueStatus =
      { counts := trueStatus, state := Cache_State.none
        sync_status_run := true
        sync_write := write_git_cache repoPath idx trueStatus
        background_refresh := false } ∧
    (∀ (s n : Int), idx = Option.some (s, n) →
      write_git_cache repoPath idx trueStatus =
        Option.some
          { index_mtime_sec := s, index_mtime_nsec := n
            modified := trueStatus.modified, staged := trueStatus.staged
            ahead := trueStatus.ahead, behind := trueStatus.behind
            branch := "", repo_path := takeChars 255 repoPath }) ∧
    (idx = Option.none → write_git_cache repoPath idx trueStatus = Option.none) := by
  refine ⟨by simp [get_git_status_cached, h], ?_, ?_⟩
  · rintro s n rfl
    rfl
  · rintro rfl
    rfl

/-- Witness for C6 as amended: a concrete miss with a statable index runs
the recompute synchronously and writes the fresh counts before
returning. -/
theorem c6_miss_query_witness :
    get_git_status_cached "/r" Option.none 0 (Option.some (7, 9)) ⟨1, 2, 3, 4⟩ =
      { counts := ⟨1, 2, 3, 4⟩, state := Cache_State.none
        sync_status_run := true
        sync_write := Option.some
          { index_mtime_sec := 7, index_mtime_nsec := 9, modified := 1
            staged := 2, ahead := 3, behind := 4, branch := ""
            repo_path := takeChars 255 "/r" }
        background_refresh := false } := by
  have h := c6_miss_query "/r" Option.none 0 (Option.some (7, 9)) ⟨1, 2, 3, 4⟩
    (by decide)
  rw [h.1, h.2.1 7 9 rfl]

/-! ## Cache sweep: data model

`cleanup_stale_caches` (statusline.c:799-858) enumerates /dev/shm and, for
each entry whose name begins with the 17-character session-cache marker
"statusline-cache.", parses the decimal process id after the marker with
`strtol` and unlinks the file iff the id is positive and `kill(pid, 0)`
fails (no such process).  A second pass applies the same probe-and-delete
policy to "<pid>.log" files in the per-user log directory.  Directory
entry names are modelled as `List Char`; `alive pid` models
`kill(pid, 0) == 0`. -/

/-- The digit test of `strtol`'s accumulation loop. -/
def isDigitChar (c : Char) : Bool := decide ('0' ≤ c ∧ c ≤ '9')

/-- C `isspace` (the characters `strtol` skips before the number). -/
def isSpaceChar (c : Char) : Bool :=
  c = ' ' || c = '\t' || c = '\n' || c = '\x0b' || c = '\x0c' || c = '\r'

/-- `strtol`'s digit-accumulation loop: consume leading decimal digits,
stopping at the first non-digit. -/
def digitsVal : List Char → Nat → Nat
  | [], acc => acc
  | c :: rest, acc =>
    if isDigitChar c then digitsVal rest (acc * 10 + (c.toNat - 48)) else acc

/-- Model of `strtol(s, NULL, 10)`: skip whitespace, honour an optional
sign, accumulate leading decimal digits (0 when there are none). -/
def strtol10 (s : List Char) : Int :=
  match s.dropWhile isSpaceChar with
  | [] => 0
  | c :: rest =>
    if c = '-' then -(digitsVal rest 0 : Int)
    else if c = '+' then (digitsVal rest 0 : Int)
    else (digitsVal (c :: rest) 0 : Int)

/-- The 17-character session-cache file name marker
"statusline-cache." (statusline.c:819). -/
def sessCacheNameChars : List Char :=
  ['s', 't', 'a', 't', 'u', 's', 'l', 'i', 'n', 'e', '-',
   'c', 'a', 'c', 'h', 'e', '.']

/-- The git-cache file name marker "claude-git-" (statusline.c:893). -/
def gitCacheNameChars : List Char :=
  ['c', 'l', 'a', 'u', 'd', 'e', '-', 'g', 'i', 't', '-']

/-- Decision of the /dev/shm pass of `cleanup_stale_caches`
(statusline.c:817-828) for one directory entry: `true` iff the file is
unlinked.  The C code skips names not starting with the 17-byte marker
(`strncmp(.., .., 17)`), parses `strtol(name + 17)`, skips non-positive
ids, probes `kill(pid, 0)` and unlinks only when the probe fails. -/
def shm_delete (alive : Int → Bool) (name : List Char) : Bool :=
  if sessCacheNameChars.isPrefixOf name then
    let pid := strtol10 (name.drop 17)
    if pid ≤ 0 then false else !(alive pid)
  else false

/-- Decision of the log-directory pass (statusline.c:838-856) for one
entry: names shorter than 5 bytes or not ending in ".log" are skipped;
the id is parsed from the first `min (length - 4) 31` bytes of the name;
the same probe-and-delete policy applies. -/
def log_delete (alive : Int → Bool) (name : List Char) : Bool :=
  if name.length < 5 then false
  else if name.drop (name.length - 4) ≠ ['.', 'l', 'o', 'g'] then false
  else
    let pid := strtol10 (name.take (min (name.length - 4) 31))
    if pid ≤ 0 then false else !(alive pid)

/-- The decimal digit characters, as `snprintf("%d")` emits them. -/
def digitChar (n : Nat) : Char :=
  if n = 0 then '0' else if n = 1 then '1' else if n = 2 then '2'
  else if n = 3 then '3' else if n = 4 then '4' else if n = 5 then '5'
  else if n = 6 then '6' else if n = 7 then '7' else if n = 8 then '8'
  else '9'

/-- Decimal rendering of a nonnegative integer, as produced by
`snprintf(.., "%s%d", CACHE_PATH_PREFIX, pid)` when the session cache
file was created (statusline.c:769). -/
def decChars (n : Nat) : List Char :=
  if _h : n < 10 then [digitChar n]
  else decChars (n / 10) ++ [digitChar (n % 10)]
termination_by n
decreasing_by exact Nat.div_lt_self (by omega) (by omega)

theorem isDigitChar_digitChar (n : Nat) (h : n < 10) :
    isDigitChar (digitChar n) = true := by
  interval_cases n <;> decide

theorem toNat_digitChar (n : Nat) (h : n < 10) : (digitChar n).toNat - 48 = n := by
  interval_cases n <;> decide

theorem decChars_digits (n : Nat) : ∀ c ∈ decChars n, isDigitChar c = true := by
  induction n using Nat.strong_induction_on with
  | _ n ih =>
    rw [decChars]
    split
    · next h =>
      intro c hc
      rw [List.mem_singleton] at hc
      exact hc ▸ isDigitChar_digitChar n h
    · next h =>
      intro c hc
      rw [List.mem_append] at hc
      rcases hc with hc | hc
      · exact ih (n / 10) (Nat.div_lt_self (by omega) (by omega)) c hc
      · rw [List.mem_singleton] at hc
        exact hc ▸ isDigitChar_digitChar (n % 10) (Nat.mod_lt n (by omega))

theorem decChars_ne_nil (n : Nat) : decChars n ≠ [] := by
  rw [decChars]
  split
  · simp
  · simp

theorem digitsVal_append (a b : List Char) (ha : ∀ c ∈ a, isDigitChar c = true) :
    ∀ acc, digitsVal (a ++ b) acc = digitsVal b (digitsVal a acc) := by
  induction a with
  | nil => intro acc; rfl
  | cons c a ih =>
    intro acc
    have hc : isDigitChar c = true := ha c (List.mem_cons_self c a)
    rw [List.cons_append, digitsVal, digitsVal, if_pos hc, if_pos hc]
    exact ih (fun d hd => ha d (List.mem_cons_of_mem c hd)) _

theorem digitsVal_decChars (n : Nat) :
    ∀ acc, digitsVal (decChars n) acc = acc * 10 ^ (decChars n).length + n := by
  induction n using Nat.strong_induction_on with
  | _ n ih =>
    intro acc
    rw [decChars]
    split
    · next h =>
      rw [digitsVal, if_pos (isDigitChar_digitChar n h), digitsVal,
        toNat_digitChar n h]
      simp [pow_one]
    · next h =>
      rw [digitsVal_append _ _
          (decChars_digits (n / 10)) acc,
        ih (n / 10) (Nat.div_lt_self (by omega) (by omega)) acc,
        digitsVal, if_pos (isDigitChar_digitChar (n % 10) (Nat.mod_lt n (by omega))),
        digitsVal, toNat_digitChar (n % 10) (Nat.mod_lt n (by omega))]
      rw [List.length_append, List.length_singleton, pow_succ]
      generalize (10 : Nat) ^ (decChars (n / 10)).length = P
      have hmul : acc * (P * 10) = acc * P * 10 := by ring
      rw [hmul]
      omega

theorem strtol10_decChars (n : Nat) : strtol10 (decChars n) = (n : Int) := by
  obtain ⟨c, rest, hcr⟩ : ∃ c rest, decChars n = c :: rest := by
    cases h : decChars n with
    | nil => exact absurd h (decChars_ne_nil n)
    | cons c rest => exact ⟨c, rest, rfl⟩
  have hcd : isDigitChar c = true :=
    decChars_digits n c (hcr ▸ List.mem_cons_self c rest)
  have hnum : ('0' ≤ c ∧ c ≤ '9') := by
    have := hcd
    rw [isDigitChar, decide_eq_true_eq] at this
    exact this
  have hsp : isSpaceChar c = false := by
    rcases hnum with ⟨h0, h9⟩
    rw [isSpaceChar]
    simp only [Bool.or_eq_false_iff, decide_eq_false_iff_not]
    refine ⟨⟨⟨⟨⟨?_, ?_⟩, ?_⟩, ?_⟩, ?_⟩, ?_⟩ <;>
      (intro hc; subst hc; revert h0 h9; decide)
  have hminus : c ≠ '-' := by
    rcases hnum with ⟨h0, _⟩
    intro hc; subst hc; revert h0; decide
  have hplus : c ≠ '+' := by
    rcases hnum with ⟨h0, _⟩
    intro hc; subst hc; revert h0; decide
  rw [strtol10, hcr, List.dropWhile_cons, hsp]
  simp only [Bool.false_eq_true, if_false, if_neg hminus, if_neg hplus]
  rw [← hcr, digitsVal_decChars n 0]
  simp

/-- C9: when the sweep runs, the /dev/shm pass deletes a directory entry
iff its name carries the session-cache marker, the decimal process id
embedded after the marker is positive, and no process with that id exists
(`kill` probe fails); in particular a session cache file named for a
positive pid is deleted exactly when that pid is dead, and no git-cache
entry (name marker "claude-git-") is ever deleted; the log pass deletes
only ".log"-suffixed names, under the same dead-process policy. -/
theorem c9_sweep (alive : Int → Bool) :
    (∀ name : List Char,
      shm_delete alive name = true ↔
        (sessCacheNameChars.isPrefixOf name = true ∧
          0 < strtol10 (name.drop 17) ∧
          alive (strtol10 (name.drop 17)) = false)) ∧
    (∀ pid : Nat, 0 < pid →
      shm_delete alive (sessCacheNameChars ++ decChars pid) = !(alive pid)) ∧
    (∀ rest : List Char, shm_delete alive (gitCacheNameChars ++ rest) = false) ∧
    (∀ name : List Char, log_delete alive name = true →
      name.drop (name.length - 4) = ['.', 'l', 'o', 'g']) := by
  refine ⟨?_, ?_, ?_, ?_⟩
  · intro name
    rw [shm_delete]
    by_cases hp : sessCacheNameChars.isPrefixOf name
    · rw [if_pos hp]
      by_cases hpid : strtol10 (name.drop 17) ≤ 0
      · rw [if_pos hpid]
        simp only [Bool.false_eq_true, false_iff]
        rintro ⟨_, hpos, _⟩
        omega
      · rw [if_neg hpid]
        rw [Bool.not_eq_true']
        constructor
        · intro hdead
          exact ⟨hp, by omega, hdead⟩
        · rintro ⟨_, _, hdead⟩
          exact hdead
    · rw [if_neg hp]
      simp only [Bool.false_eq_true, false_iff]
      rintro ⟨hp', _, _⟩
      exact hp hp'
  · intro pid hpid
    have hdrop : (sessCacheNameChars ++ decChars pid).drop 17 = decChars pid := by
      have hlen : sessCacheNameChars.length = 17 := rfl
      rw [← hlen, List.drop_left]
    have hpre : sessCacheNameChars.isPrefixOf (sessCacheNameChars ++ decChars pid) =
        true := by
      rw [List.isPrefixOf_iff_prefix]
      exact List.prefix_append _ _
    rw [shm_delete, if_pos hpre, hdrop, strtol10_decChars]
    rw [if_neg (by omega)]
  · intro rest
    rw [shm_delete, if_neg ?_]
    rw [gitCacheNameChars, sessCacheNameChars]
    simp [List.isPrefixOf]
  · intro name h
    rw [log_delete] at h
    by_cases h5 : name.length < 5
    · rw [if_pos h5] at h; cases h
    · rw [if_neg h5] at h
      by_cases hsuf : name.drop (name.length - 4) ≠ ['.', 'l', 'o', 'g']
      · rw [if_pos hsuf] at h; cases h
      · push_neg at hsuf
        exact hsuf

/-- Witness for C9: a session cache file for the dead pid 42 is deleted
by the sweep when no process exists. -/
theorem c9_sweep_witness :
    shm_delete (fun _ => false) (sessCacheNameChars ++ decChars 42) = true := by
  have h := (c9_sweep (fun _ => false)).2.1 42 (by decide)
  simpa using h

/-! ## Output buffer and stdin reader -/

/-- Model of `output_string` (statusline.c:128-136) acting on the 4096
byte `Output_Buffer`: the string is appended only when
`length + string_length < sizeof(data)`; otherwise the append does
nothing at all (the string is dropped whole, not truncated). -/
def output_string (data : List Char) (s : List Char) : List Char :=
  if data.length + s.length < 4096 then data ++ s else data

/-- Model of `output_char` (statusline.c:141-149). -/
def output_char (data : List Char) (c : Char) : List Char :=
  if data.length + 1 < 4096 then data ++ [c] else data

/-- Model of `read_stdin` (statusline.c:1202-1215): `Option.none` when
the 50 ms poll times out or the read returns no bytes (the stream
argument is `Option.none` on timeout); otherwise a single
`read(.., .., capacity - 1)` keeps the first `capacity - 1` bytes of the
arrived data and NUL-terminates.  `main` calls it with an 8192-byte
buffer. -/
def read_stdin (stream : Option (List Char)) (cap : Nat) : Option (List Char) :=
  match stream with
  | Option.none => Option.none
  | Option.some s => if s = [] then Option.none else Option.some (s.take (cap - 1))

/-- C10, counterexample to the claim as stated.  With 4090 bytes already
buffered, appending the 8-byte string "abcdefgh" does not keep the
5-byte prefix "abcde" that would fit below the 4096-byte capacity: the
guard at statusline.c:131 drops the string entirely, so output-buffer
truncation is all-or-nothing, not prefix-keeping. -/
theorem c10_counterexample :
    output_string (List.replicate 4090 'x') ['a', 'b', 'c', 'd', 'e', 'f', 'g', 'h'] =
      List.replicate 4090 'x' ∧
    output_string (List.replicate 4090 'x') ['a', 'b', 'c', 'd', 'e', 'f', 'g', 'h'] ≠
      List.replicate 4090 'x' ++ ['a', 'b', 'c', 'd', 'e'] ∧
    (List.replicate 4090 'x').length + (['a', 'b', 'c', 'd', 'e'] : List Char).length <
      4096 := by
  have hcond : ¬ ((List.replicate 4090 'x').length +
      (['a', 'b', 'c', 'd', 'e', 'f', 'g', 'h'] : List Char).length < 4096) := by
    rw [List.length_replicate]
    norm_num
  refine ⟨by rw [output_string, if_neg hcond], ?_,
    by rw [List.length_replicate]; norm_num⟩
  rw [output_string, if_neg hcond]
  intro hEq
  have hlen := congrArg List.length hEq
  rw [List.length_replicate, List.length_append, List.length_replicate] at hlen
  norm_num at hlen

/-- C10 as amended: the 4096-byte output buffer never overflows — an
append either fits in full (strictly below capacity) or leaves the
buffer completely unchanged (all-or-nothing, not prefix-truncation) —
and reading stdin never overflows its buffer and keeps a prefix of the
arriving data (its first `capacity - 1` bytes). -/
theorem c10_amended (data s : List Char) (h : data.length < 4096) :
    (output_string data s).length < 4096 ∧
    (output_string data s = data ++ s ∨ output_string data s = data) ∧
    (∀ c, (output_char data c).length < 4096 ∧
      (output_char data c = data ++ [c] ∨ output_char data c = data)) ∧
    (∀ stream : List Char,
      read_stdin (Option.some stream) 8192 = Option.none ∨
      (read_stdin (Option.some stream) 8192 = Option.some (stream.take 8191) ∧
        (stream.take 8191).length ≤ 8191 ∧ stream.take 8191 <+: stream)) := by
  refine ⟨?_, ?_, ?_, ?_⟩
  · rw [output_string]
    split
    · next hfit => simpa using by omega
    · simpa using h
  · rw [output_string]
    split
    · exact Or.inl rfl
    · exact Or.inr rfl
  · intro c
    constructor
    · rw [output_char]
      split
      · next hfit => simpa using by omega
      · simpa using h
    · rw [output_char]
      split
      · exact Or.inl rfl
      · exact Or.inr rfl
  · intro stream
    rw [read_stdin]
    by_cases hstream : stream = []
    · rw [if_pos hstream]
      exact Or.inl rfl
    · rw [if_neg hstream]
      refine Or.inr ⟨rfl, ?_, List.take_prefix 8191 stream⟩
      simp

/-- Witness for C10 as amended: an append to the empty buffer fits and
stays in bounds, and a one-byte stdin stream is kept as a prefix. -/
theorem c10_amended_witness :
    (output_string [] ['a']).length < 4096 ∧
    read_stdin (Option.some ['a']) 8192 = Option.some (['a'].take 8191) := by
  have h := c10_amended [] ['a'] (by decide)
  refine ⟨h.1, ?_⟩
  rcases h.2.2.2 ['a'] with hnone | ⟨hsome, _, _⟩
  · exact absurd hnone (by decide)
  · exact hsome

end Statusline
